import Mathlib

/-!
# Verification of the cache-aware incremental collection core of `app.py`

Shallow embedding of the collection pipeline of the FISIS insurance-statistics
collector: the Point Fetcher (`fetch_json`, `fetch_statistics`), the Remote
Catalog Client (`get_companies`, `get_accounts`), the Reconciliation Driver
(`run_async_collection` with its inner `build_tasks` and the `as_completed`
collection loop), the Cache Store interface (`get_cached_data`, `save_to_md`),
and the counting-semaphore admission discipline of the bounded concurrent
fetch engine.

Python dictionaries coming from the JSON API are modelled with `Option`-valued
fields (absent key = `none`); Python truthiness of the values that occur in the
value-extraction chain is modelled by `pyTruthy`.
-/

/-- A dynamically-typed value as it appears in a parsed JSON response item:
either a string or an integer.  (These are the shapes the source's
value-extraction chain can meet in the fields `a`, `won`, `column_value`.) -/
inductive PyVal where
  | str (s : String)
  | int (n : Int)
deriving DecidableEq, Repr

/-- Python truthiness of a `PyVal`: the empty string and `0` are falsy,
everything else is truthy. -/
def pyTruthy : PyVal → Bool
  | .str s => !s.isEmpty
  | .int n => n != 0

/-- Python's `x or y` for an optional left operand (`item.get(k)` returns
`None` when the key is absent): returns the left value when it is present and
truthy, otherwise the right operand. -/
def pyOr (x : Option PyVal) (y : PyVal) : PyVal :=
  match x with
  | some v => if pyTruthy v then v else y
  | none => y

/-- One row of the statistics response's `result.list`, restricted to the
fields `fetch_statistics` reads.  `base_month` stands for the period carried
by the API response row; the source never reads it. -/
structure Item where
  a : Option PyVal
  won : Option PyVal
  column_value : Option PyVal
  unit_name : Option String
  base_month : Option String
deriving DecidableEq, Repr

/-- The value-extraction chain of `fetch_statistics` (src/app.py:540):
`item.get('a') or item.get('won') or item.get('column_value') or 0`. -/
def rawValue (it : Item) : PyVal :=
  pyOr it.a (pyOr it.won (pyOr it.column_value (.int 0)))

/-- The extraction the spec sentence describes: the first *present* field wins
even when its value is falsy, with `0` only when all three fields are absent.
(Spec-side definition, used solely to compare against `rawValue`.) -/
def firstPresentValue (it : Item) : PyVal :=
  match it.a with
  | some v => v
  | none =>
    match it.won with
    | some v => v
    | none => it.column_value.getD (.int 0)

/-- A company catalog entry as built by `get_companies`. -/
structure Company where
  financeCd : String
  financeNm : String
  partDiv : String
deriving DecidableEq, Repr

/-- An account catalog entry as built by `get_accounts`. -/
structure Account where
  accountCd : String
  accountNm : String
  listNo : String
deriving DecidableEq, Repr

/-- The in-memory row that `fetch_statistics` returns (the dict of
src/app.py:542-551); the value still carries the raw API payload. -/
structure StatRow where
  sector : String
  companyCode : String
  companyName : String
  accountCode : String
  accountName : String
  baseMonth : String
  unit : String
  rawVal : PyVal
deriving DecidableEq, Repr

/-- A durable cached row of the `insurance_stats` table: the eight data
columns plus the server-assigned collection timestamp. -/
structure CachedRow where
  sector : String
  companyCode : String
  companyName : String
  accountCode : String
  accountName : String
  baseMonth : String
  unit : String
  value : Option ℚ
  collectedAt : String
deriving DecidableEq, Repr

/-- Outcome of one HTTP request, before `fetch_json`'s handling: a raised
transport exception / timeout, or a response with a status code and a body
that either parses as JSON into a document of type `α` or is invalid. -/
inductive ParseResult (α : Type) where
  | invalid
  | parsed (doc : α)
deriving DecidableEq, Repr

inductive HttpResult (α : Type) where
  | failure
  | response (status : ℕ) (body : ParseResult α)
deriving DecidableEq, Repr

/-- `fetch_json` (src/app.py:469-481): returns the parsed JSON document only
on a 200 response with a valid JSON body; every transport exception, non-200
status or JSON decode error yields `None`.  No exception escapes. -/
def fetch_json {α : Type} : HttpResult α → Option α
  | .failure => none
  | .response status body =>
    if status = 200 then
      match body with
      | .parsed doc => some doc
      | .invalid => none
    else none

/-- The JSON envelope `{result: {list: [...]}}` as the source probes it:
`data and 'result' in data and 'list' in data['result']`. -/
inductive Envelope (β : Type) where
  | noResultField
  | resultWithoutList
  | resultList (items : List β)
deriving DecidableEq, Repr

/-- A company item of the `companySearch` response. -/
structure CompanyItem where
  finance_cd : String
  finance_nm : String
deriving DecidableEq, Repr

/-- `get_companies` (src/app.py:483-497): builds the company catalog from the
response; any absent/failed document yields the empty catalog. -/
def get_companies (part_div : String) (resp : HttpResult (Envelope CompanyItem)) :
    List Company :=
  match fetch_json resp with
  | none => []
  | some env =>
    match env with
    | .resultList items =>
      items.map fun it => ⟨it.finance_cd, it.finance_nm, part_div⟩
    | _ => []

/-- An account item of the `accountListSearch` response. -/
structure AccountItem where
  account_cd : String
  account_nm : String
deriving DecidableEq, Repr

/-- `get_accounts` (src/app.py:499-512): builds the account catalog from the
response; any absent/failed document yields the empty catalog. -/
def get_accounts (list_no : String) (resp : HttpResult (Envelope AccountItem)) :
    List Account :=
  match fetch_json resp with
  | none => []
  | some env =>
    match env with
    | .resultList items =>
      items.map fun it => ⟨it.account_cd, it.account_nm, list_no⟩
    | _ => []

/-- `fetch_statistics` (src/app.py:514-552) for one (company, account) pair:
parses the first row of `result.list` when present, applies the
value-extraction chain, and stamps the row with the *requested* target month
(`기준년월` is set to `TARGET_MONTH`, not to anything in the response).
Returns `none` on transport failure, malformed body, missing envelope keys or
an empty result list. -/
def fetch_statistics (target : String) (comp : Company) (acc : Account)
    (resp : HttpResult (Envelope Item)) : Option StatRow :=
  match fetch_json resp with
  | none => none
  | some env =>
    match env with
    | .resultList (item :: _) =>
      some { sector := if comp.partDiv = "H" then "생명보험" else "손해보험"
             companyCode := comp.financeCd
             companyName := comp.financeNm
             accountCode := acc.accountCd
             accountName := acc.accountNm
             baseMonth := target
             unit := item.unit_name.getD ""
             rawVal := rawValue item }
    | _ => none

/-- Characters Python's `str.strip()` removes by default (the whitespace set
relevant to the catalog/cache code strings). -/
def isPySpace (c : Char) : Bool :=
  c = ' ' || c = '\t' || c = '\n' || c = '\r'

/-- Python's `str.strip()` on the character list: drop whitespace from both
ends. -/
def stripChars (l : List Char) : List Char :=
  List.rdropWhile isPySpace (l.dropWhile isPySpace)

/-- Python's `str.strip()` / pandas `.str.strip()`. -/
def pyStrip (s : String) : String :=
  (stripChars s.toList).asString

/-- `str()` on the values the pipeline carries (pandas `astype(str)`). -/
def pyStr : PyVal → String
  | .str s => s
  | .int n => toString n

/-- The trimmed cache-membership key of a cached row, as built at
src/app.py:594-598: `(회사코드.strip(), 계정코드.strip())`. -/
def existing_keys (rows : List CachedRow) : List (String × String) :=
  rows.map fun r => (pyStrip r.companyCode, pyStrip r.accountCode)

/-- The trimmed key of a catalog pair, as computed inside `build_tasks`
(src/app.py:604-605). -/
def taskKey (comp : Company) (acc : Account) : String × String :=
  (pyStrip comp.financeCd, pyStrip acc.accountCd)

/-- `build_tasks` (src/app.py:601-607): nested loop over companies and
accounts, keeping each pair whose trimmed key is not in the cache key set. -/
def build_tasks (keys : List (String × String)) (companies : List Company)
    (accounts : List Account) : List (Company × Account) :=
  companies.flatMap fun comp =>
    accounts.filterMap fun acc =>
      if taskKey comp acc ∈ keys then none else some (comp, acc)

/-- The full work list: `build_tasks` over life companies × life accounts
followed by non-life companies × non-life accounts (src/app.py:608-609). -/
def workList (keys : List (String × String)) (lifeC nonLifeC : List Company)
    (lifeA nonLifeA : List Account) : List (Company × Account) :=
  build_tasks keys lifeC lifeA ++ build_tasks keys nonLifeC nonLifeA

/-- The `as_completed` consumption loop (src/app.py:625-632): for each
completed task, append its row to `new_results` when the result is present
(`if res:`), and increment the completion counter unconditionally. -/
def collectLoop (results : List (Option StatRow)) : List StatRow × ℕ :=
  results.foldl
    (fun acc r =>
      match r with
      | some row => (acc.1 ++ [row], acc.2 + 1)
      | none => (acc.1, acc.2 + 1))
    ([], 0)

/-- `str.replace(',', '')`: delete every comma (the thousands separators). -/
def removeCommas (s : String) : String :=
  (s.toList.filter fun c => c ≠ ',').asString

/-- Split a character list at every `'.'`. -/
def splitDot : List Char → List (List Char)
  | [] => [[]]
  | c :: cs =>
    let r := splitDot cs
    if c = '.' then [] :: r
    else
      match r with
      | [] => [[c]]
      | h :: t => (c :: h) :: t

/-- Digit value of a character, `none` when it is not a decimal digit. -/
def digitVal (c : Char) : Option ℕ :=
  if c.isDigit then some (c.toNat - '0'.toNat) else none

/-- Parse a non-empty all-digit character list as a natural number. -/
def parseNatDigits (cs : List Char) : Option ℕ :=
  if cs.isEmpty then none
  else cs.foldlM (fun acc c => (digitVal c).map fun d => acc * 10 + d) 0

/-- Syntactic phase of decimal parsing: an optional minus sign, an integer
part, an optional fractional part.  Yields (negative?, integer digits,
fraction digits, fraction length); `none` when the string is not such a
decimal literal. -/
def parseDecimalChars : List Char → Option (Bool × ℕ × ℕ × ℕ)
  | '-' :: rest => (parseUnsignedChars rest).map fun t => (true, t)
  | cs => (parseUnsignedChars cs).map fun t => (false, t)
where
  parseUnsignedChars (cs : List Char) : Option (ℕ × ℕ × ℕ) :=
    match splitDot cs with
    | [intPart] => (parseNatDigits intPart).map fun i => (i, 0, 0)
    | [intPart, fracPart] =>
      if intPart.isEmpty ∧ fracPart.isEmpty then none
      else
        match (if intPart.isEmpty then some 0 else parseNatDigits intPart),
            (if fracPart.isEmpty then some 0 else parseNatDigits fracPart) with
        | some i, some f => some (i, f, fracPart.length)
        | _, _ => none
    | _ => none

/-- Semantic phase: the rational value of a parsed decimal. -/
def decimalToRat : Bool × ℕ × ℕ × ℕ → ℚ
  | (neg, i, f, fl) =>
    (if neg then (-1 : ℚ) else 1) * ((i : ℚ) + (f : ℚ) / (10 : ℚ) ^ fl)

/-- The numeric coercion of `pd.to_numeric(..., errors='coerce')` on the
decimal strings this pipeline produces: optional sign, digits, optional
fractional part; anything else coerces to `none` (pandas `NaN`, stored as
SQL NULL). -/
def parseNumber (s : String) : Option ℚ :=
  (parseDecimalChars s.toList).map decimalToRat

/-- The value normalization of src/app.py:639:
`pd.to_numeric(new_df['값'].astype(str).str.replace(',', ''), errors='coerce')` —
stringify, strip every thousands separator, coerce to a number, unparsable
becomes null. -/
def normalizeValue (v : PyVal) : Option ℚ :=
  parseNumber (removeCommas (pyStr v))

/-- How a fetched row becomes a durable cached row: the driver normalizes the
value column (src/app.py:639) and `save_to_md` (src/app.py:89-108) trims the
company code, account code and base month and stamps `CURRENT_TIMESTAMP`. -/
def toCachedRow (ts : String) (r : StatRow) : CachedRow :=
  { sector := r.sector
    companyCode := pyStrip r.companyCode
    companyName := r.companyName
    accountCode := pyStrip r.accountCode
    accountName := r.accountName
    baseMonth := pyStrip r.baseMonth
    unit := r.unit
    value := normalizeValue r.rawVal
    collectedAt := ts }

/-- A cell of a materialized record (one dict entry of `to_dict('records')`). -/
inductive Cell where
  | str (s : String)
  | num (v : Option ℚ)
  | raw (v : PyVal)
deriving DecidableEq, Repr

/-- The fixed eight-column schema `COLUMNS` of src/app.py:44. -/
def COLUMNS : List String :=
  ["구분", "회사코드", "회사명", "계정코드", "계정명", "기준년월", "단위", "값"]

/-- The dict `fetch_statistics` returns, as a record (its raw value field). -/
def statRowRecord (r : StatRow) : List (String × Cell) :=
  [("구분", .str r.sector), ("회사코드", .str r.companyCode),
   ("회사명", .str r.companyName), ("계정코드", .str r.accountCode),
   ("계정명", .str r.accountName), ("기준년월", .str r.baseMonth),
   ("단위", .str r.unit), ("값", .raw r.rawVal)]

/-- A row of `new_df` after the numeric normalization of src/app.py:639. -/
def normRowRecord (r : StatRow) : List (String × Cell) :=
  [("구분", .str r.sector), ("회사코드", .str r.companyCode),
   ("회사명", .str r.companyName), ("계정코드", .str r.accountCode),
   ("계정명", .str r.accountName), ("기준년월", .str r.baseMonth),
   ("단위", .str r.unit), ("값", .num (normalizeValue r.rawVal))]

/-- A cached row as `cached_df.to_dict('records')` materializes it: the eight
data columns plus the `수집일시` collection-timestamp column of the table. -/
def cachedRowRecord (r : CachedRow) : List (String × Cell) :=
  [("구분", .str r.sector), ("회사코드", .str r.companyCode),
   ("회사명", .str r.companyName), ("계정코드", .str r.accountCode),
   ("계정명", .str r.accountName), ("기준년월", .str r.baseMonth),
   ("단위", .str r.unit), ("값", .num r.value), ("수집일시", .str r.collectedAt)]

/-- Column projection `df[cols]`: keep, in `cols` order, the columns of the
record. -/
def restrictCols (cols : List String) (row : List (String × Cell)) :
    List (String × Cell) :=
  cols.filterMap fun c => (row.lookup c).map fun v => (c, v)

/-- `get_cached_data` (src/app.py:76-87): the rows of the store whose
`기준년월` equals the target month (exact string equality). -/
def cacheForPeriod (store : List CachedRow) (target : String) : List CachedRow :=
  store.filter fun r => r.baseMonth = target

/-- The four catalogs fetched at src/app.py:622-628. -/
structure Catalogs where
  lifeCompanies : List Company
  nonLifeCompanies : List Company
  lifeAccounts : List Account
  nonLifeAccounts : List Account

/-- Observable outcome of one `run_async_collection` run. -/
structure RunOutcome where
  worklist : List (Company × Account)
  newRows : List StatRow
  storeAfter : List CachedRow
  resultRows : List (List (String × Cell))
deriving Repr

/-- Steps 1-5 of the driver: the work list of one run — the catalog cross
products minus the trimmed keys of the rows cached for the period. -/
def runWorkList (target : String) (store : List CachedRow) (cat : Catalogs) :
    List (Company × Account) :=
  workList (existing_keys (cacheForPeriod store target)) cat.lifeCompanies
    cat.nonLifeCompanies cat.lifeAccounts cat.nonLifeAccounts

/-- The point-fetch outcomes of one run, one per work-list task. -/
def runFetchResults (target : String) (store : List CachedRow) (cat : Catalogs)
    (oracle : Company → Account → HttpResult (Envelope Item)) :
    List (Option StatRow) :=
  (runWorkList target store cat).map fun ca =>
    fetch_statistics target ca.1 ca.2 (oracle ca.1 ca.2)

/-- Step 7 of the driver: the rows accumulated by the `as_completed` loop. -/
def runNewRows (target : String) (store : List CachedRow) (cat : Catalogs)
    (oracle : Company → Account → HttpResult (Envelope Item)) : List StatRow :=
  (collectLoop (runFetchResults target store cat oracle)).1

/-- The Reconciliation Driver `run_async_collection` (src/app.py:585-660),
for one target period against a cache store, catalogs and a point-fetch
oracle giving each pair's HTTP outcome; `ts` is the write timestamp the
store assigns.
1. read cached rows for the period; 2. build the trimmed key set;
3-5. build the work list; 6. empty work list → return cached records
unchanged, nothing written; 7. collect fetch results as they complete;
8. non-empty `new_results` → normalize values and append to the store;
9. return the merged records (`cached_df[COLUMNS]` ++ `new_df[COLUMNS]` when
the cache was non-empty, else the raw new dicts). -/
def runCollection (target ts : String) (store : List CachedRow) (cat : Catalogs)
    (oracle : Company → Account → HttpResult (Envelope Item)) : RunOutcome :=
  if (runWorkList target store cat).isEmpty then
    ⟨runWorkList target store cat, [], store,
      (cacheForPeriod store target).map cachedRowRecord⟩
  else if (runNewRows target store cat oracle).isEmpty then
    ⟨runWorkList target store cat, runNewRows target store cat oracle, store,
      (cacheForPeriod store target).map cachedRowRecord⟩
  else
    ⟨runWorkList target store cat, runNewRows target store cat oracle,
      store ++ (runNewRows target store cat oracle).map (toCachedRow ts),
      if (cacheForPeriod store target).isEmpty then
        (runNewRows target store cat oracle).map statRowRecord
      else
        (cacheForPeriod store target).map
            (fun r => restrictCols COLUMNS (cachedRowRecord r)) ++
          (runNewRows target store cat oracle).map
            fun r => restrictCols COLUMNS (normRowRecord r)⟩

lemma pyOr_truthy {v : PyVal} (y : PyVal) (hv : pyTruthy v = true) :
    pyOr (some v) y = v := by
  simp [pyOr, hv]

lemma pyOr_falsy {x : Option PyVal} (y : PyVal)
    (h : ∀ w, x = some w → pyTruthy w = false) : pyOr x y = y := by
  cases x with
  | none => rfl
  | some w => simp [pyOr, h w rfl]

lemma normalizeValue_comma_stripped : normalizeValue (.str "1,234") = some 1234 := by
  have h : parseDecimalChars (removeCommas (pyStr (PyVal.str "1,234"))).toList =
      some (false, 1234, 0, 0) := by decide
  simp only [normalizeValue, parseNumber, h, Option.map_some']
  norm_num [decimalToRat]

lemma normalizeValue_unparsable : normalizeValue (.str "abc") = none := by
  have h : parseDecimalChars (removeCommas (pyStr (PyVal.str "abc"))).toList =
      none := by decide
  simp only [normalizeValue, parseNumber, h, Option.map_none']

lemma restrictCols_cachedRowRecord_fst (r : CachedRow) :
    (restrictCols COLUMNS (cachedRowRecord r)).map Prod.fst = COLUMNS := rfl

lemma restrictCols_normRowRecord_fst (r : StatRow) :
    (restrictCols COLUMNS (normRowRecord r)).map Prod.fst = COLUMNS := rfl


/-- The concurrency cap `MAX_CONCURRENT_REQUESTS` of src/app.py:36. -/
def MAX_CONCURRENT_REQUESTS : ℕ := 20

/-- Phase of one fetch task with respect to the admission semaphore of
src/app.py:529-530 (`async with semaphore: data = await fetch_json(...)`):
not yet admitted, holding a slot with the network call in flight, or finished
(slot released); `ok` records whether the call succeeded or failed. -/
inductive TaskPhase where
  | pending
  | active
  | done (ok : Bool)
deriving DecidableEq, Repr

/-- Number of tasks currently holding an admission slot. -/
def activeCount (ph : List TaskPhase) : ℕ :=
  ph.countP fun p => p == TaskPhase.active

/-- One scheduler step of the cooperative fetch engine under a semaphore of
capacity `cap`: a pending task may acquire a slot only when fewer than `cap`
slots are held (then its network call is issued), and an active task's call
may resolve — with either outcome — releasing its slot. -/
inductive SemStep (cap : ℕ) : List TaskPhase → List TaskPhase → Prop where
  | acquire (ph : List TaskPhase) (i : ℕ) (h : ph.get? i = some .pending)
      (hc : activeCount ph < cap) : SemStep cap ph (ph.set i .active)
  | finish (ph : List TaskPhase) (i : ℕ) (ok : Bool)
      (h : ph.get? i = some .active) : SemStep cap ph (ph.set i (.done ok))

/-- States reachable by the fetch engine from `n` submitted tasks. -/
def SemReachable (cap n : ℕ) (s : List TaskPhase) : Prop :=
  Relation.ReflTransGen (SemStep cap) (List.replicate n .pending) s

lemma countP_set_eq (p : TaskPhase → Bool) (x : TaskPhase) :
    ∀ (l : List TaskPhase) (i : ℕ) (y : TaskPhase), l.get? i = some y →
      (l.set i x).countP p + (if p y then 1 else 0) =
        l.countP p + (if p x then 1 else 0) := by
  intro l
  induction l with
  | nil => intro i y h; simp at h
  | cons a t ih =>
    intro i y h
    cases i with
    | zero =>
      simp only [List.get?] at h
      cases h
      simp [List.countP_cons]
      omega
    | succ j =>
      simp only [List.get?] at h
      have := ih j y h
      simp [List.countP_cons]
      omega

lemma activeCount_replicate_pending (n : ℕ) :
    activeCount (List.replicate n .pending) = 0 := by
  induction n with
  | zero => rfl
  | succ m ih => simp [activeCount, List.replicate, List.countP_cons]

lemma semStep_activeCount_le {cap : ℕ} {s t : List TaskPhase}
    (hstep : SemStep cap s t) (hs : activeCount s ≤ cap) :
    activeCount t ≤ cap := by
  cases hstep with
  | acquire i h hc =>
    have := countP_set_eq (fun p => p == TaskPhase.active) .active s i .pending h
    simp only [activeCount] at *
    simp at this
    omega
  | finish i ok h =>
    have := countP_set_eq (fun p => p == TaskPhase.active) (.done ok) s i .active h
    simp only [activeCount] at *
    simp at this
    omega

lemma semReachable_activeCount_le {cap n : ℕ} {s : List TaskPhase}
    (h : SemReachable cap n s) : activeCount s ≤ cap := by
  induction h with
  | refl => simp [activeCount_replicate_pending]
  | tail _ hstep ih => exact semStep_activeCount_le hstep ih

lemma ite_none_eq_some {α : Type} {P : Prop} [Decidable P] {x y : α} :
    (if P then (none : Option α) else some x) = some y ↔ ¬P ∧ x = y := by
  split <;> simp_all

lemma build_tasks_inner_eq_filter (keys : List (String × String)) (c : Company)
    (as_ : List Account) :
    (as_.filterMap fun acc =>
        if taskKey c acc ∈ keys then none else some (c, acc)) =
      (as_.map (Prod.mk c)).filter fun ca => !decide (taskKey ca.1 ca.2 ∈ keys) := by
  induction as_ with
  | nil => simp
  | cons a at_ ih =>
    simp only [List.filterMap_cons, List.map_cons, List.filter_cons]
    by_cases hk : taskKey c a ∈ keys <;> simp [hk, ih]

lemma build_tasks_eq_filter (keys : List (String × String)) (cs : List Company)
    (as_ : List Account) :
    build_tasks keys cs as_ =
      (cs.product as_).filter fun ca => !decide (taskKey ca.1 ca.2 ∈ keys) := by
  unfold build_tasks List.product
  induction cs with
  | nil => simp
  | cons c ct ih =>
    simp only [List.flatMap_cons, List.filter_append, ih]
    congr 1
    exact build_tasks_inner_eq_filter keys c as_

lemma mem_build_tasks {keys : List (String × String)} {cs : List Company}
    {as_ : List Account} {ca : Company × Account} :
    ca ∈ build_tasks keys cs as_ ↔
      ca.1 ∈ cs ∧ ca.2 ∈ as_ ∧ taskKey ca.1 ca.2 ∉ keys := by
  obtain ⟨c, a⟩ := ca
  rw [build_tasks_eq_filter, List.mem_filter]
  simp [List.mem_product]
  tauto

lemma mem_workList {keys : List (String × String)} {lc nlc : List Company}
    {la nla : List Account} {ca : Company × Account} :
    ca ∈ workList keys lc nlc la nla ↔
      ((ca.1 ∈ lc ∧ ca.2 ∈ la) ∨ (ca.1 ∈ nlc ∧ ca.2 ∈ nla)) ∧
        taskKey ca.1 ca.2 ∉ keys := by
  rw [workList, List.mem_append, mem_build_tasks, mem_build_tasks]
  tauto

lemma nodup_build_tasks {keys : List (String × String)} {cs : List Company}
    {as_ : List Account} (hcs : cs.Nodup) (has : as_.Nodup) :
    (build_tasks keys cs as_).Nodup := by
  rw [build_tasks_eq_filter]
  exact (hcs.product has).filter _

lemma count_eq_one_of_nodup_mem {α : Type} [BEq α] [LawfulBEq α] {l : List α}
    {a : α} (hn : l.Nodup) (ha : a ∈ l) : l.count a = 1 := by
  induction l with
  | nil => exact absurd ha (by simp)
  | cons b t ih =>
    rw [List.nodup_cons] at hn
    rcases List.mem_cons.mp ha with h | h
    · rw [h, List.count_cons_self, List.count_eq_zero.mpr (h ▸ hn.1)]
    · have hab : a ≠ b := by
        intro he
        exact hn.1 (he ▸ h)
      rw [List.count_cons_of_ne hab, ih hn.2 h]

lemma stripChars_idem (l : List Char) : stripChars (stripChars l) = stripChars l := by
  unfold stripChars
  have hk : (List.rdropWhile isPySpace (l.dropWhile isPySpace)).dropWhile isPySpace =
      List.rdropWhile isPySpace (l.dropWhile isPySpace) := by
    rcases hke : List.rdropWhile isPySpace (l.dropWhile isPySpace) with _ | ⟨a, t⟩
    · simp
    · have hpre : a :: t <+: l.dropWhile isPySpace := by
        rw [← hke]; exact List.rdropWhile_prefix _ _
      obtain ⟨s, hs⟩ := hpre
      have hne : l.dropWhile isPySpace ≠ [] := by
        rw [← hs]; simp
      have hhead : isPySpace ((l.dropWhile isPySpace).head hne) = false :=
        List.head_dropWhile_not _ _ _
      have hsome : (l.dropWhile isPySpace).head? = some a := by
        rw [← hs]; rfl
      rw [List.head?_eq_head hne] at hsome
      have ha : isPySpace a = false := by
        rw [← Option.some_inj.mp hsome]; exact hhead
      simp [List.dropWhile_cons, ha]
  rw [hk, List.rdropWhile_idempotent]

lemma pyStrip_idem (s : String) : pyStrip (pyStrip s) = pyStrip s := by
  unfold pyStrip
  rw [List.toList_asString, stripChars_idem]

lemma collectLoop_foldl (results : List (Option StatRow)) :
    ∀ acc : List StatRow × ℕ,
      results.foldl
        (fun acc r =>
          match r with
          | some row => (acc.1 ++ [row], acc.2 + 1)
          | none => (acc.1, acc.2 + 1)) acc =
        (acc.1 ++ results.filterMap id, acc.2 + results.length) := by
  induction results with
  | nil => intro acc; simp
  | cons r t ih =>
    intro acc
    cases r with
    | some row => simp [List.foldl_cons, ih]; omega
    | none => simp [List.foldl_cons, ih]; omega

lemma collectLoop_eq (results : List (Option StatRow)) :
    collectLoop results = (results.filterMap id, results.length) := by
  unfold collectLoop
  rw [collectLoop_foldl]
  simp

lemma fetch_statistics_some {target : String} {comp : Company} {acc : Account}
    {resp : HttpResult (Envelope Item)} {row : StatRow}
    (h : fetch_statistics target comp acc resp = some row) :
    row.companyCode = comp.financeCd ∧ row.accountCode = acc.accountCd ∧
      row.baseMonth = target := by
  unfold fetch_statistics at h
  cases hj : fetch_json resp with
  | none => rw [hj] at h; exact absurd h (by simp)
  | some env =>
    rw [hj] at h
    cases env with
    | noResultField => exact absurd h (by simp)
    | resultWithoutList => exact absurd h (by simp)
    | resultList items =>
      cases items with
      | nil => exact absurd h (by simp)
      | cons item rest =>
        simp only [Option.some_inj] at h
        rw [← h]
        exact ⟨rfl, rfl, rfl⟩

lemma runNewRows_eq (target : String) (store : List CachedRow) (cat : Catalogs)
    (oracle : Company → Account → HttpResult (Envelope Item)) :
    runNewRows target store cat oracle =
      (runFetchResults target store cat oracle).filterMap id := by
  unfold runNewRows
  rw [collectLoop_eq]

lemma runCollection_worklist (target ts : String) (store : List CachedRow)
    (cat : Catalogs) (oracle : Company → Account → HttpResult (Envelope Item)) :
    (runCollection target ts store cat oracle).worklist =
      runWorkList target store cat := by
  unfold runCollection
  split
  · rfl
  · split <;> rfl

lemma runCollection_of_wl_empty {target ts : String} {store : List CachedRow}
    {cat : Catalogs} {oracle : Company → Account → HttpResult (Envelope Item)}
    (h : runWorkList target store cat = []) :
    runCollection target ts store cat oracle =
      ⟨[], [], store, (cacheForPeriod store target).map cachedRowRecord⟩ := by
  unfold runCollection
  rw [h]
  simp

lemma runCollection_storeAfter_of_empty {target ts : String}
    {store : List CachedRow} {cat : Catalogs}
    {oracle : Company → Account → HttpResult (Envelope Item)}
    (h : runNewRows target store cat oracle = []) :
    (runCollection target ts store cat oracle).storeAfter = store := by
  unfold runCollection
  rw [h]
  split <;> simp

lemma runCollection_of_newRows_nonempty {target ts : String}
    {store : List CachedRow} {cat : Catalogs}
    {oracle : Company → Account → HttpResult (Envelope Item)}
    (h : runNewRows target store cat oracle ≠ []) :
    runCollection target ts store cat oracle =
      ⟨runWorkList target store cat, runNewRows target store cat oracle,
        store ++ (runNewRows target store cat oracle).map (toCachedRow ts),
        if (cacheForPeriod store target).isEmpty then
          (runNewRows target store cat oracle).map statRowRecord
        else
          (cacheForPeriod store target).map
              (fun r => restrictCols COLUMNS (cachedRowRecord r)) ++
            (runNewRows target store cat oracle).map
              fun r => restrictCols COLUMNS (normRowRecord r)⟩ := by
  have hwl : ¬(runWorkList target store cat).isEmpty = true := by
    intro hempty
    apply h
    rw [runNewRows_eq]
    unfold runFetchResults
    rw [List.isEmpty_iff] at hempty
    rw [hempty]
    rfl
  unfold runCollection
  rw [if_neg hwl, if_neg (by simpa [List.isEmpty_iff] using h)]

lemma runCollection_newRows_cases (target ts : String) (store : List CachedRow)
    (cat : Catalogs) (oracle : Company → Account → HttpResult (Envelope Item)) :
    (runCollection target ts store cat oracle).newRows = [] ∨
      (runCollection target ts store cat oracle).newRows =
        runNewRows target store cat oracle := by
  unfold runCollection
  split
  · left; rfl
  · split
    · right; rfl
    · right; rfl

lemma mem_runNewRows {target : String} {store : List CachedRow} {cat : Catalogs}
    {oracle : Company → Account → HttpResult (Envelope Item)} {r : StatRow}
    (h : r ∈ runNewRows target store cat oracle) :
    ∃ ca ∈ runWorkList target store cat,
      fetch_statistics target ca.1 ca.2 (oracle ca.1 ca.2) = some r := by
  rw [runNewRows_eq] at h
  unfold runFetchResults at h
  simp only [List.mem_filterMap, List.mem_map, id] at h
  obtain ⟨o, ⟨ca, hca, ho⟩, hor⟩ := h
  exact ⟨ca, hca, by rw [ho, hor]⟩

lemma runNewRows_mem_of_fetch {target : String} {store : List CachedRow}
    {cat : Catalogs} {oracle : Company → Account → HttpResult (Envelope Item)}
    {ca : Company × Account} {r : StatRow} (hca : ca ∈ runWorkList target store cat)
    (hf : fetch_statistics target ca.1 ca.2 (oracle ca.1 ca.2) = some r) :
    r ∈ runNewRows target store cat oracle := by
  rw [runNewRows_eq]
  unfold runFetchResults
  simp only [List.mem_filterMap, List.mem_map, id]
  exact ⟨some r, ⟨ca, hca, hf⟩, rfl⟩

/-- **C1**, counterexample.  The claim says the first field *present* in the
item wins even when its value is falsy.  On the item whose field `a` is
present with the falsy value `""` and whose field `won` is `"5"`, the code's
`or`-chain skips the present-but-falsy `a` and yields `"5"`, while the
claimed first-present extraction yields `""`. -/
theorem c1_counterexample :
    rawValue ⟨some (.str ""), some (.str "5"), none, none, none⟩ = .str "5" ∧
      firstPresentValue ⟨some (.str ""), some (.str "5"), none, none, none⟩ =
        .str "" ∧
      rawValue ⟨some (.str ""), some (.str "5"), none, none, none⟩ ≠
        firstPresentValue ⟨some (.str ""), some (.str "5"), none, none, none⟩ :=
  ⟨by decide, by decide, by decide⟩

/-- **C1**, amended.  The value extraction of `fetch_statistics` tries the
fields `a`, `won`, `column_value` in exactly that priority order, but a field
wins only when it is present *and truthy*; a present-but-falsy field (such as
`0` or `""`) is skipped, and when no field holds a truthy value the result is
numeric zero. -/
theorem c1_value_priority (it : Item) :
    (∀ v, it.a = some v → pyTruthy v = true → rawValue it = v) ∧
      (∀ v, (∀ w, it.a = some w → pyTruthy w = false) → it.won = some v →
        pyTruthy v = true → rawValue it = v) ∧
      (∀ v, (∀ w, it.a = some w → pyTruthy w = false) →
        (∀ w, it.won = some w → pyTruthy w = false) → it.column_value = some v →
        pyTruthy v = true → rawValue it = v) ∧
      ((∀ w, it.a = some w → pyTruthy w = false) →
        (∀ w, it.won = some w → pyTruthy w = false) →
        (∀ w, it.column_value = some w → pyTruthy w = false) →
        rawValue it = .int 0) :=
  ⟨fun v hv ht => by rw [rawValue, hv, pyOr_truthy _ ht],
   fun v ha hw ht => by rw [rawValue, pyOr_falsy _ ha, hw, pyOr_truthy _ ht],
   fun v ha hw hcv ht => by
     rw [rawValue, pyOr_falsy _ ha, pyOr_falsy _ hw, hcv, pyOr_truthy _ ht],
   fun ha hw hcv => by
     rw [rawValue, pyOr_falsy _ ha, pyOr_falsy _ hw, pyOr_falsy _ hcv]⟩

/-- Witness for `c1_value_priority` at concrete items: a truthy `a` wins, and
with `a` present but falsy (`0`) and `won` absent, `column_value` wins. -/
theorem c1_value_priority_witness :
    rawValue ⟨some (.int 7), some (.str "9"), none, none, none⟩ = .int 7 ∧
      rawValue ⟨some (.int 0), none, some (.str "1,234"), none, none⟩ =
        .str "1,234" :=
  ⟨(c1_value_priority _).1 _ rfl (by decide),
   (c1_value_priority _).2.2.1 _
     (fun w hw => by injection hw with h; rw [← h]; decide)
     (fun w hw => by exact absurd hw (by simp)) rfl (by decide)⟩

/-- **C4**: when the computed work list is empty, the driver returns the
cached rows unchanged (every column and value of `cached_df.to_dict('records')`),
issues no point fetch (the result list of the fetch engine is empty) and
writes nothing to the store. -/
theorem c4_empty_worklist_cache_hit (target ts : String) (store : List CachedRow)
    (cat : Catalogs) (oracle : Company → Account → HttpResult (Envelope Item))
    (h : runWorkList target store cat = []) :
    runCollection target ts store cat oracle =
        ⟨[], [], store, (cacheForPeriod store target).map cachedRowRecord⟩ ∧
      runFetchResults target store cat oracle = [] :=
  ⟨runCollection_of_wl_empty h, by unfold runFetchResults; rw [h]; rfl⟩

/-- Witness for `c4_empty_worklist_cache_hit`: a store already holding the
one catalog pair (with a null value) yields an empty work list, and the run
returns the cached record untouched. -/
theorem c4_empty_worklist_cache_hit_witness :
    runCollection "202509" "T"
        [⟨"생명보험", "A1", "X", "AC1", "Y", "202509", "억원", none, "T0"⟩]
        ⟨[⟨"A1", "X", "H"⟩], [], [⟨"AC1", "Y", "SH021"⟩], []⟩ (fun _ _ => .failure) =
      ⟨[], [],
        [⟨"생명보험", "A1", "X", "AC1", "Y", "202509", "억원", none, "T0"⟩],
        (cacheForPeriod
          [⟨"생명보험", "A1", "X", "AC1", "Y", "202509", "억원", none, "T0"⟩]
          "202509").map cachedRowRecord⟩ :=
  (c4_empty_worklist_cache_hit "202509" "T"
    [⟨"생명보험", "A1", "X", "AC1", "Y", "202509", "억원", none, "T0"⟩]
    ⟨[⟨"A1", "X", "H"⟩], [], [⟨"AC1", "Y", "SH021"⟩], []⟩ (fun _ _ => .failure)
    (by decide)).1

/-- **C5**: under the admission semaphore of capacity
`MAX_CONCURRENT_REQUESTS` = 20, every state the fetch engine can reach from
any number of submitted tasks has at most 20 tasks holding a slot, and an
active task's call resolving — with either outcome, success or failure —
is always a legal step that releases its slot (the slot is held exactly for
the duration of the network call). -/
theorem c5_semaphore_bound (n : ℕ) (s : List TaskPhase) :
    (SemReachable MAX_CONCURRENT_REQUESTS n s →
        activeCount s ≤ MAX_CONCURRENT_REQUESTS) ∧
      (∀ i, s.get? i = some .active → ∀ ok : Bool,
        SemStep MAX_CONCURRENT_REQUESTS s (s.set i (.done ok))) :=
  ⟨semReachable_activeCount_le, fun i h ok => .finish s i ok h⟩

/-- Witness for `c5_semaphore_bound`: the initial state of five submitted
tasks is reachable and within the bound, and a lone active task may finish
with a failed call, releasing its slot. -/
theorem c5_semaphore_bound_witness :
    activeCount (List.replicate 5 TaskPhase.pending) ≤ MAX_CONCURRENT_REQUESTS ∧
      SemStep MAX_CONCURRENT_REQUESTS [TaskPhase.active]
        ([TaskPhase.active].set 0 (.done false)) :=
  ⟨(c5_semaphore_bound 5 (List.replicate 5 TaskPhase.pending)).1
      Relation.ReflTransGen.refl,
   (c5_semaphore_bound 5 [TaskPhase.active]).2 0 rfl false⟩

/-- **C7**: the `as_completed` consumption loop increments the completion
counter once per task whatever the outcome, and keeps exactly the present
results, silently discarding every absent one: for any sequence of task
outcomes (in any completion order) the final count is the number of tasks
and the accumulated rows are the present results in completion order. -/
theorem c7_completion_count (results : List (Option StatRow)) :
    (collectLoop results).2 = results.length ∧
      (collectLoop results).1 = results.filterMap id := by
  rw [collectLoop_eq]
  exact ⟨rfl, rfl⟩

/-- **C8**: every transport failure, non-success HTTP status and invalid
JSON body makes `fetch_json` return an absent document — never an
exception — and then the Catalog Client returns an empty catalog and the
Point Fetcher an absent row. -/
theorem c8_silent_transport_failure (part_div list_no target : String)
    (comp : Company) (acc : Account) (status : ℕ) (hs : status ≠ 200) :
    (fetch_json (.failure : HttpResult (Envelope Item)) = none) ∧
      (∀ body : ParseResult (Envelope Item),
        fetch_json (.response status body) = none) ∧
      (fetch_json (.response 200 .invalid : HttpResult (Envelope Item)) = none) ∧
      (∀ resp : HttpResult (Envelope CompanyItem), fetch_json resp = none →
        get_companies part_div resp = []) ∧
      (∀ resp : HttpResult (Envelope AccountItem), fetch_json resp = none →
        get_accounts list_no resp = []) ∧
      (∀ resp : HttpResult (Envelope Item), fetch_json resp = none →
        fetch_statistics target comp acc resp = none) :=
  ⟨rfl,
   fun _ => by simp [fetch_json, hs],
   by decide,
   fun resp h => by unfold get_companies; rw [h],
   fun resp h => by unfold get_accounts; rw [h],
   fun resp h => by unfold fetch_statistics; rw [h]⟩

/-- Witness for `c8_silent_transport_failure` at a concrete 404 response:
the document is absent, the company catalog is empty and the fetched row is
absent. -/
theorem c8_silent_transport_failure_witness :
    fetch_json (.response 404 .invalid : HttpResult (Envelope Item)) = none ∧
      get_companies "H" (.failure : HttpResult (Envelope CompanyItem)) = [] ∧
      fetch_statistics "202509" ⟨"A1", "X", "H"⟩ ⟨"AC1", "Y", "SH021"⟩
        (.failure : HttpResult (Envelope Item)) = none :=
  ⟨(c8_silent_transport_failure "H" "SH021" "202509" ⟨"A1", "X", "H"⟩
      ⟨"AC1", "Y", "SH021"⟩ 404 (by decide)).2.1 .invalid,
   (c8_silent_transport_failure "H" "SH021" "202509" ⟨"A1", "X", "H"⟩
      ⟨"AC1", "Y", "SH021"⟩ 404 (by decide)).2.2.2.1 .failure rfl,
   (c8_silent_transport_failure "H" "SH021" "202509" ⟨"A1", "X", "H"⟩
      ⟨"AC1", "Y", "SH021"⟩ 404 (by decide)).2.2.2.2.2 .failure rfl⟩

/-- **C10**: a successful point fetch always stamps the produced row with
the *requested* target period, whatever period the API response row carries;
consequently every row collected by one run carries that same period
string. -/
theorem c10_target_period_stamped (target : String) :
    (∀ (comp : Company) (acc : Account) (resp : HttpResult (Envelope Item))
        (row : StatRow),
      fetch_statistics target comp acc resp = some row →
        row.baseMonth = target) ∧
      (∀ (ts : String) (store : List CachedRow) (cat : Catalogs)
          (oracle : Company → Account → HttpResult (Envelope Item))
          (r : StatRow),
        r ∈ (runCollection target ts store cat oracle).newRows →
          r.baseMonth = target) := by
  constructor
  · intro comp acc resp row h
    exact (fetch_statistics_some h).2.2
  · intro ts store cat oracle r hr
    rcases runCollection_newRows_cases target ts store cat oracle with h | h
    · rw [h] at hr
      exact absurd hr (by simp)
    · rw [h] at hr
      obtain ⟨ca, _, hf⟩ := mem_runNewRows hr
      exact (fetch_statistics_some hf).2.2

/-- Witness for `c10_target_period_stamped`: a response row carrying the
alien period `"209912"` still produces a row stamped with the requested
period `"202509"`. -/
theorem c10_target_period_stamped_witness :
    ({ sector := "생명보험", companyCode := "A1", companyName := "X",
       accountCode := "AC1", accountName := "Y", baseMonth := "202509",
       unit := "억원", rawVal := .str "1,234" } : StatRow).baseMonth =
      "202509" :=
  (c10_target_period_stamped "202509").1 ⟨"A1", "X", "H"⟩ ⟨"AC1", "Y", "SH021"⟩
    (.response 200 (.parsed (.resultList
      [⟨none, none, some (.str "1,234"), some "억원", some "209912"⟩])))
    _ (by decide)

/-- **C2**: the work list is exactly the cartesian-product union
(life companies × life accounts) ∪ (non-life companies × non-life accounts)
minus the trimmed keys of the cached rows — (1) membership in the work list
is equivalent to membership in one of the two sector products with a trimmed
key absent from the cache (in particular no cross-sector pair ever appears);
(2) each such pair yields exactly one task (catalogs duplicate-free and
sector-disjoint); (3) a pair whose trimmed key matches any cached row —
whatever that row's value, including null — yields no task. -/
theorem c2_worklist_set_difference (cache : List CachedRow)
    (lc nlc : List Company) (la nla : List Account)
    (h1 : lc.Nodup) (h2 : la.Nodup) (h3 : nlc.Nodup) (h4 : nla.Nodup)
    (h5 : ∀ c, c ∈ lc → c ∉ nlc) :
    (∀ ca : Company × Account,
      ca ∈ workList (existing_keys cache) lc nlc la nla ↔
        ((ca.1 ∈ lc ∧ ca.2 ∈ la) ∨ (ca.1 ∈ nlc ∧ ca.2 ∈ nla)) ∧
          taskKey ca.1 ca.2 ∉ existing_keys cache) ∧
      (∀ ca : Company × Account,
        ((ca.1 ∈ lc ∧ ca.2 ∈ la) ∨ (ca.1 ∈ nlc ∧ ca.2 ∈ nla)) →
        taskKey ca.1 ca.2 ∉ existing_keys cache →
        (workList (existing_keys cache) lc nlc la nla).count ca = 1) ∧
      (∀ r ∈ cache, ∀ ca : Company × Account,
        taskKey ca.1 ca.2 = (pyStrip r.companyCode, pyStrip r.accountCode) →
        ca ∉ workList (existing_keys cache) lc nlc la nla) := by
  refine ⟨fun ca => mem_workList, ?_, ?_⟩
  · intro ca hin hnot
    rw [workList, List.count_append]
    rcases hin with ⟨hc, ha⟩ | ⟨hc, ha⟩
    · have m1 : ca ∈ build_tasks (existing_keys cache) lc la :=
        mem_build_tasks.mpr ⟨hc, ha, hnot⟩
      have c1 := count_eq_one_of_nodup_mem (nodup_build_tasks h1 h2) m1
      have m2 : ca ∉ build_tasks (existing_keys cache) nlc nla := by
        intro hm
        exact h5 ca.1 hc (mem_build_tasks.mp hm).1
      have c2 : (build_tasks (existing_keys cache) nlc nla).count ca = 0 :=
        List.count_eq_zero.mpr m2
      rw [c1, c2]
    · have m2 : ca ∈ build_tasks (existing_keys cache) nlc nla :=
        mem_build_tasks.mpr ⟨hc, ha, hnot⟩
      have c2 := count_eq_one_of_nodup_mem (nodup_build_tasks h3 h4) m2
      have m1 : ca ∉ build_tasks (existing_keys cache) lc la := by
        intro hm
        exact h5 ca.1 (mem_build_tasks.mp hm).1 hc
      have c1 : (build_tasks (existing_keys cache) lc la).count ca = 0 :=
        List.count_eq_zero.mpr m1
      rw [c1, c2]
  · intro r hr ca hk hmem
    apply (mem_workList.mp hmem).2
    rw [hk]
    exact List.mem_map_of_mem _ hr

/-- Witness for `c2_worklist_set_difference`: the spec's own example — one
life company `A1`, one life account `AC1`, empty non-life catalogs, empty
cache — produces exactly one task `(A1, AC1)`; and with that pair cached
with a null value, the pair is excluded. -/
theorem c2_worklist_set_difference_witness :
    (workList (existing_keys []) [⟨"A1", "X", "H"⟩] [] [⟨"AC1", "Y", "SH021"⟩]
        []).count (⟨"A1", "X", "H"⟩, ⟨"AC1", "Y", "SH021"⟩) = 1 ∧
      (⟨"A1", "X", "H"⟩, ⟨"AC1", "Y", "SH021"⟩) ∉
        workList
          (existing_keys
            [⟨"생명보험", "A1", "X", "AC1", "Y", "202509", "억원", none, "T0"⟩])
          [⟨"A1", "X", "H"⟩] [] [⟨"AC1", "Y", "SH021"⟩] [] :=
  ⟨(c2_worklist_set_difference [] [⟨"A1", "X", "H"⟩] [] [⟨"AC1", "Y", "SH021"⟩]
      [] (by decide) (by decide) (by decide) (by decide) (by decide)).2.1
      (⟨"A1", "X", "H"⟩, ⟨"AC1", "Y", "SH021"⟩) (by decide) (by decide),
   (c2_worklist_set_difference
      [⟨"생명보험", "A1", "X", "AC1", "Y", "202509", "억원", none, "T0"⟩]
      [⟨"A1", "X", "H"⟩] [] [⟨"AC1", "Y", "SH021"⟩] [] (by decide) (by decide)
      (by decide) (by decide) (by decide)).2.2
      ⟨"생명보험", "A1", "X", "AC1", "Y", "202509", "억원", none, "T0"⟩
      (by decide) (⟨"A1", "X", "H"⟩, ⟨"AC1", "Y", "SH021"⟩) (by decide)⟩

/-- **C6**: when the run produced new rows, the rows appended to the store
are the fetched rows with the value column numerically normalized — the
stored value of each row is the raw value stringified, stripped of every
thousands separator and coerced to a number, with unparsable values becoming
null; in particular a response item carrying only `column_value = "1,234"`
extracts to `"1,234"` and is stored as the number `1234`, while an
unparsable `"abc"` is stored as null. -/
theorem c6_value_normalized_before_persist (target ts : String)
    (store : List CachedRow) (cat : Catalogs)
    (oracle : Company → Account → HttpResult (Envelope Item))
    (h : runNewRows target store cat oracle ≠ []) :
    (runCollection target ts store cat oracle).storeAfter =
        store ++ (runNewRows target store cat oracle).map (toCachedRow ts) ∧
      (∀ r : StatRow, (toCachedRow ts r).value =
        parseNumber (removeCommas (pyStr r.rawVal))) ∧
      rawValue ⟨none, none, some (.str "1,234"), none, none⟩ = .str "1,234" ∧
      normalizeValue (.str "1,234") = some 1234 ∧
      normalizeValue (.str "abc") = none := by
  refine ⟨?_, fun r => rfl, by decide, normalizeValue_comma_stripped,
    normalizeValue_unparsable⟩
  rw [runCollection_of_newRows_nonempty h]

/-- Witness for `c6_value_normalized_before_persist`: one uncached pair whose
response carries only `column_value = "1,234"`; the run persists the
normalized rows. -/
theorem c6_value_normalized_before_persist_witness :
    (runCollection "202509" "T1" []
          ⟨[⟨"A1", "X", "H"⟩], [], [⟨"AC1", "Y", "SH021"⟩], []⟩
          (fun _ _ => .response 200 (.parsed (.resultList
            [⟨none, none, some (.str "1,234"), none, none⟩])))).storeAfter =
        [] ++ (runNewRows "202509" []
          ⟨[⟨"A1", "X", "H"⟩], [], [⟨"AC1", "Y", "SH021"⟩], []⟩
          (fun _ _ => .response 200 (.parsed (.resultList
            [⟨none, none, some (.str "1,234"), none, none⟩])))).map
          (toCachedRow "T1") ∧
      normalizeValue (.str "1,234") = some 1234 :=
  ⟨(c6_value_normalized_before_persist "202509" "T1" []
      ⟨[⟨"A1", "X", "H"⟩], [], [⟨"AC1", "Y", "SH021"⟩], []⟩
      (fun _ _ => .response 200 (.parsed (.resultList
        [⟨none, none, some (.str "1,234"), none, none⟩]))) (by decide)).1,
   (c6_value_normalized_before_persist "202509" "T1" []
      ⟨[⟨"A1", "X", "H"⟩], [], [⟨"AC1", "Y", "SH021"⟩], []⟩
      (fun _ _ => .response 200 (.parsed (.resultList
        [⟨none, none, some (.str "1,234"), none, none⟩]))) (by decide)).2.2.2.1⟩

/-- **C9**, counterexample.  With one cached row keyed `(A1, AC1)` and one
fetched row keyed `(A2, AC1)` the merged result does have exactly 2 rows,
but the claim "no column present in either source is dropped" fails: the
cached source's records carry the collection-timestamp column `수집일시`
(the cache table's ninth column), and no result row retains it — the merge
projects both sources onto the fixed eight-column schema. -/
theorem c9_counterexample :
    (runCollection "202509" "T2"
          [⟨"생명보험", "A1", "X", "AC1", "Y", "202509", "억원", some 10, "T0"⟩]
          ⟨[⟨"A2", "Z", "H"⟩], [], [⟨"AC1", "Y", "SH021"⟩], []⟩
          (fun _ _ => .response 200 (.parsed (.resultList
            [⟨some (.int 20), none, none, some "억원", none⟩])))).resultRows.length =
        2 ∧
      "수집일시" ∈ (cachedRowRecord
          ⟨"생명보험", "A1", "X", "AC1", "Y", "202509", "억원", some 10, "T0"⟩).map
          Prod.fst ∧
      ∀ row ∈ (runCollection "202509" "T2"
          [⟨"생명보험", "A1", "X", "AC1", "Y", "202509", "억원", some 10, "T0"⟩]
          ⟨[⟨"A2", "Z", "H"⟩], [], [⟨"AC1", "Y", "SH021"⟩], []⟩
          (fun _ _ => .response 200 (.parsed (.resultList
            [⟨some (.int 20), none, none, some "억원", none⟩])))).resultRows,
        "수집일시" ∉ row.map Prod.fst := by
  refine ⟨?_, by decide, ?_⟩
  · rw [runCollection_of_newRows_nonempty (by decide)]
    decide
  · rw [runCollection_of_newRows_nonempty (by decide)]
    decide

/-- **C9**, amended.  When both the cached rows and `newRows` are non-empty,
the result is their concatenation projected onto the fixed eight-column
schema `COLUMNS`: the row count is the sum of the two sources' row counts
(each cached row keyed `(A1, AC1)` and each new row keyed `(A2, AC1)` both
survive), every one of the eight shared data columns is present in every
result row, and the cache-only collection-timestamp column is dropped
(column sets are intersected, as the merge is `cached_df[COLUMNS]` ++
`new_df[COLUMNS]`). -/
theorem c9_merge_aligns_columns (target ts : String) (store : List CachedRow)
    (cat : Catalogs) (oracle : Company → Account → HttpResult (Envelope Item))
    (hc : ¬(cacheForPeriod store target).isEmpty = true)
    (hn : runNewRows target store cat oracle ≠ []) :
    (runCollection target ts store cat oracle).resultRows.length =
        (cacheForPeriod store target).length +
          (runNewRows target store cat oracle).length ∧
      ∀ row ∈ (runCollection target ts store cat oracle).resultRows,
        row.map Prod.fst = COLUMNS := by
  rw [runCollection_of_newRows_nonempty hn]
  constructor
  · rw [if_neg hc]
    simp
  · intro row hrow
    rw [if_neg hc] at hrow
    rcases List.mem_append.mp hrow with h | h
    · obtain ⟨r, _, hr⟩ := List.mem_map.mp h
      rw [← hr]
      exact restrictCols_cachedRowRecord_fst r
    · obtain ⟨r, _, hr⟩ := List.mem_map.mp h
      rw [← hr]
      exact restrictCols_normRowRecord_fst r

/-- Witness for `c9_merge_aligns_columns` at the C9 scenario (cached `(A1,
AC1)`, fetched `(A2, AC1)`): 1 + 1 rows, each with exactly the eight-column
schema. -/
theorem c9_merge_aligns_columns_witness :
    (runCollection "202509" "T2"
          [⟨"생명보험", "A1", "X", "AC1", "Y", "202509", "억원", some 10, "T0"⟩]
          ⟨[⟨"A2", "Z", "H"⟩], [], [⟨"AC1", "Y", "SH021"⟩], []⟩
          (fun _ _ => .response 200 (.parsed (.resultList
            [⟨some (.int 20), none, none, some "억원", none⟩])))).resultRows.length =
      (cacheForPeriod
          [⟨"생명보험", "A1", "X", "AC1", "Y", "202509", "억원", some 10, "T0"⟩]
          "202509").length +
        (runNewRows "202509"
          [⟨"생명보험", "A1", "X", "AC1", "Y", "202509", "억원", some 10, "T0"⟩]
          ⟨[⟨"A2", "Z", "H"⟩], [], [⟨"AC1", "Y", "SH021"⟩], []⟩
          (fun _ _ => .response 200 (.parsed (.resultList
            [⟨some (.int 20), none, none, some "억원", none⟩])))).length :=
  (c9_merge_aligns_columns "202509" "T2"
    [⟨"생명보험", "A1", "X", "AC1", "Y", "202509", "억원", some 10, "T0"⟩]
    ⟨[⟨"A2", "Z", "H"⟩], [], [⟨"AC1", "Y", "SH021"⟩], []⟩
    (fun _ _ => .response 200 (.parsed (.resultList
      [⟨some (.int 20), none, none, some "억원", none⟩])))
    (by decide) (by decide)).1

/-- **C3**, counterexample.  One uncached pair whose fetch fails (transport
failure): the first run fetches it, gets an absent result, persists nothing,
so the immediately following second run — with no external change — finds
the pair still missing and its work list has size 1, not 0. -/
theorem c3_counterexample :
    (runCollection "202509" "T2"
        (runCollection "202509" "T1" []
          ⟨[⟨"A1", "X", "H"⟩], [], [⟨"AC1", "Y", "SH021"⟩], []⟩
          (fun _ _ => .failure)).storeAfter
        ⟨[⟨"A1", "X", "H"⟩], [], [⟨"AC1", "Y", "SH021"⟩], []⟩
        (fun _ _ => .failure)).worklist.length = 1 := by decide

/-- **C3**, amended.  For a target period that carries no surrounding
whitespace, if every fetch of the first run's work list returns a present
row, then running the collection again immediately (same catalogs, same
fetch outcomes, the store now extended by the first run's write) yields an
empty work list: the first run persists every pair it *successfully*
fetched, and pairs whose fetch returned an absent result are the only ones
re-listed — absent with the success hypothesis. -/
theorem c3_second_run_empty_worklist (target ts1 ts2 : String)
    (store : List CachedRow) (cat : Catalogs)
    (oracle : Company → Account → HttpResult (Envelope Item))
    (htarget : pyStrip target = target)
    (hsucc : ∀ ca ∈ runWorkList target store cat,
      fetch_statistics target ca.1 ca.2 (oracle ca.1 ca.2) ≠ none) :
    (runCollection target ts2
        (runCollection target ts1 store cat oracle).storeAfter cat
        oracle).worklist = [] := by
  rw [runCollection_worklist]
  by_cases hwl : runWorkList target store cat = []
  · rw [runCollection_of_wl_empty hwl]
    exact hwl
  · have hnew : runNewRows target store cat oracle ≠ [] := by
      obtain ⟨ca, t, hcons⟩ := List.exists_cons_of_ne_nil hwl
      intro hne
      rw [runNewRows_eq] at hne
      unfold runFetchResults at hne
      rw [hcons] at hne
      cases hf : fetch_statistics target ca.1 ca.2 (oracle ca.1 ca.2) with
      | none => exact hsucc ca (hcons ▸ List.mem_cons_self ca t) hf
      | some row =>
        rw [List.map_cons, List.filterMap_cons, hf] at hne
        simp at hne
    rw [runCollection_of_newRows_nonempty hnew]
    have hcover : ∀ (c : Company) (a : Account),
        ((c ∈ cat.lifeCompanies ∧ a ∈ cat.lifeAccounts) ∨
          (c ∈ cat.nonLifeCompanies ∧ a ∈ cat.nonLifeAccounts)) →
        taskKey c a ∈ existing_keys (cacheForPeriod
          (store ++ (runNewRows target store cat oracle).map (toCachedRow ts1))
          target) := by
      intro c a hin
      unfold cacheForPeriod existing_keys
      rw [List.filter_append, List.map_append]
      by_cases hk : taskKey c a ∈ existing_keys (cacheForPeriod store target)
      · exact List.mem_append_left _ hk
      · have hca : (c, a) ∈ runWorkList target store cat := by
          unfold runWorkList
          exact mem_workList.mpr ⟨hin, hk⟩
        cases hf : fetch_statistics target c a (oracle c a) with
        | none => exact absurd hf (hsucc (c, a) hca)
        | some row =>
          have hrowmem : row ∈ runNewRows target store cat oracle :=
            runNewRows_mem_of_fetch hca hf
          have hprops := fetch_statistics_some hf
          have hmonth : (toCachedRow ts1 row).baseMonth = target := by
            show pyStrip row.baseMonth = target
            rw [hprops.2.2, htarget]
          refine List.mem_append_right _ ?_
          have hkey : (pyStrip (toCachedRow ts1 row).companyCode,
              pyStrip (toCachedRow ts1 row).accountCode) = taskKey c a := by
            show (pyStrip (pyStrip row.companyCode),
              pyStrip (pyStrip row.accountCode)) = taskKey c a
            rw [pyStrip_idem, pyStrip_idem, hprops.1, hprops.2.1]
            rfl
          rw [← hkey]
          refine List.mem_map_of_mem _ ?_
          rw [List.mem_filter]
          refine ⟨List.mem_map_of_mem _ hrowmem, by simp [hmonth]⟩
    unfold runWorkList workList
    have e1 : build_tasks
        (existing_keys (cacheForPeriod
          (store ++ (runNewRows target store cat oracle).map (toCachedRow ts1))
          target)) cat.lifeCompanies cat.lifeAccounts = [] := by
      rw [build_tasks_eq_filter, List.filter_eq_nil_iff]
      intro ca hca
      obtain ⟨c, a⟩ := ca
      have hm := List.mem_product.mp hca
      have := hcover c a (Or.inl hm)
      simp [this]
    have e2 : build_tasks
        (existing_keys (cacheForPeriod
          (store ++ (runNewRows target store cat oracle).map (toCachedRow ts1))
          target)) cat.nonLifeCompanies cat.nonLifeAccounts = [] := by
      rw [build_tasks_eq_filter, List.filter_eq_nil_iff]
      intro ca hca
      obtain ⟨c, a⟩ := ca
      have hm := List.mem_product.mp hca
      have := hcover c a (Or.inr hm)
      simp [this]
    rw [e1, e2]
    rfl

/-- Witness for `c3_second_run_empty_worklist`: one uncached pair whose
fetch succeeds; after the first run persists it, the second run's work list
is empty. -/
theorem c3_second_run_empty_worklist_witness :
    (runCollection "202509" "T2"
        (runCollection "202509" "T1" []
          ⟨[⟨"A1", "X", "H"⟩], [], [⟨"AC1", "Y", "SH021"⟩], []⟩
          (fun _ _ => .response 200 (.parsed (.resultList
            [⟨some (.int 5), none, none, none, none⟩])))).storeAfter
        ⟨[⟨"A1", "X", "H"⟩], [], [⟨"AC1", "Y", "SH021"⟩], []⟩
        (fun _ _ => .response 200 (.parsed (.resultList
          [⟨some (.int 5), none, none, none, none⟩])))).worklist = [] :=
  c3_second_run_empty_worklist "202509" "T1" "T2" []
    ⟨[⟨"A1", "X", "H"⟩], [], [⟨"AC1", "Y", "SH021"⟩], []⟩
    (fun _ _ => .response 200 (.parsed (.resultList
      [⟨some (.int 5), none, none, none, none⟩])))
    (by decide) (by decide)
